import Mathlib

/-
Verification of the weather ETL utility (tomorrow_app).

The development shallowly embeds the three source files:
  - src/tomorrow_app/main.py        (transform_row, fetch_weather_data,
                                     get_history_and_forecast, upsert_to_postgres)
  - src/crontab_etl_script.py       (run_docker_container and the two top-level calls)
  - src/tomorrow_app/tests/test_transform_row.py (the literal transform test)

Python dicts are association lists over string keys; JSON values are the
inductive type Json; pandas cell values after type normalization are the flat
type Cell; machine floats that only flow through the code unchanged are
modelled as rationals; failing code returns Option or Except.
-/

set_option maxHeartbeats 1000000

namespace Tomorrow

instance exceptDecEq {ε α : Type} [DecidableEq ε] [DecidableEq α] :
    DecidableEq (Except ε α)
  | Except.error e, Except.error f =>
    if h : e = f then isTrue (by rw [h]) else isFalse (fun hc => h (Except.error.inj hc))
  | Except.error _, Except.ok _ => isFalse (fun hc => Except.noConfusion hc)
  | Except.ok _, Except.error _ => isFalse (fun hc => Except.noConfusion hc)
  | Except.ok x, Except.ok y =>
    if h : x = y then isTrue (by rw [h]) else isFalse (fun hc => h (Except.ok.inj hc))

/-- JSON-like values as handled by the script: numbers (Python ints and floats
modelled as rationals, since the code only moves them around), strings,
objects (Python dicts, as association lists) and arrays. -/
inductive Json where
  | num (q : ℚ)
  | str (s : String)
  | obj (kvs : List (String × Json))
  | arr (xs : List Json)

/-- A Python dict with string keys and JSON values. -/
abbrev Dict := List (String × Json)

/-- Dict lookup, modelling the Python indexing d[k]; Option.none models the
KeyError raise. -/
def jget (kvs : Dict) (k : String) : Option Json :=
  List.lookup k kvs

/-- Embedding of transform_row (main.py lines 32-49): reads row values,
location lat and lon, row startTime, values temperature and values windSpeed,
and builds the canonical record in the literal insertion order of the Python
dict display. Option.none models the KeyError or TypeError raise when a field
is absent or row values is not a dict. -/
def transform_row (row location : Dict) : Option Dict := do
  let v ← jget row "values"
  match v with
  | Json.obj values => do
      let lat ← jget location "lat"
      let lon ← jget location "lon"
      let st ← jget row "startTime"
      let temp ← jget values "temperature"
      let ws ← jget values "windSpeed"
      some [("latitude", lat), ("longitude", lon), ("snapshot_time", st),
            ("temperature", temp), ("wind_speed", ws)]
  | _ => Option.none

/-- Projection row startTime, used to state noninterference of transform_row. -/
def projStartTime (row : Dict) : Option Json :=
  jget row "startTime"

/-- Projection row values k (indexing into the nested values dict), used to
state noninterference of transform_row. -/
def projValues (row : Dict) (k : String) : Option Json :=
  match jget row "values" with
  | some (Json.obj values) => jget values k
  | _ => Option.none

/-- The result of transform_row as a function of the five projections it
reads; used to prove that nothing else in the inputs influences the result. -/
def transformOfProj (lat lon st temp ws : Option Json) : Option Dict := do
  let lat ← lat
  let lon ← lon
  let st ← st
  let temp ← temp
  let ws ← ws
  some [("latitude", lat), ("longitude", lon), ("snapshot_time", st),
        ("temperature", temp), ("wind_speed", ws)]

/-- COLUMNS (main.py lines 10-11), the canonical column list. -/
def COLUMNS : List String :=
  ["snapshot_time", "latitude", "longitude", "temperature", "wind_speed"]

/- ---------------------------------------------------------------------
   Calendar arithmetic, modelling the pandas timestamp handling used by
   get_history_and_forecast: parsing the UTC subset of ISO-8601 accepted
   there, epoch arithmetic, and the datetime isoformat rendering.
   --------------------------------------------------------------------- -/

/-- Days from civil date, proleptic Gregorian calendar, days since 1970-01-01
(the standard era-based algorithm, with floor division via Int.ediv). -/
def daysFromCivil (y m d : Int) : Int :=
  let y2 : Int := if m ≤ 2 then y - 1 else y
  let era : Int := Int.ediv y2 400
  let yoe : Int := y2 - era * 400
  let mp : Int := Int.emod (m + 9) 12
  let doy : Int := Int.ediv (153 * mp + 2) 5 + d - 1
  let doe : Int := yoe * 365 + Int.ediv yoe 4 - Int.ediv yoe 100 + doy
  era * 146097 + doe - 719468

/-- Civil date from days since 1970-01-01, inverse of daysFromCivil. -/
def civilFromDays (z : Int) : Int × Int × Int :=
  let z2 : Int := z + 719468
  let era : Int := Int.ediv z2 146097
  let doe : Int := z2 - era * 146097
  let yoe : Int :=
    Int.ediv (doe - Int.ediv doe 1460 + Int.ediv doe 36524 - Int.ediv doe 146096) 365
  let doy : Int := doe - (365 * yoe + Int.ediv yoe 4 - Int.ediv yoe 100)
  let mp : Int := Int.ediv (5 * doy + 2) 153
  let d : Int := doy - Int.ediv (153 * mp + 2) 5 + 1
  let m : Int := mp + (if mp < 10 then 3 else -9)
  (yoe + era * 400 + (if m ≤ 2 then 1 else 0), m, d)

/-- Seconds since the epoch for a civil date and time of day (UTC). -/
def toEpoch (y m d hh mi ss : Int) : Int :=
  daysFromCivil y m d * 86400 + hh * 3600 + mi * 60 + ss

/-- Left-pad the decimal rendering of a nonnegative integer to two digits. -/
def pad2 (n : Int) : String :=
  if n < 10 then "0" ++ toString n.toNat else toString n.toNat

/-- Left-pad the decimal rendering of a nonnegative integer to four digits. -/
def pad4 (n : Int) : String :=
  if n < 10 then "000" ++ toString n.toNat
  else if n < 100 then "00" ++ toString n.toNat
  else if n < 1000 then "0" ++ toString n.toNat
  else toString n.toNat

/-- The isoformat rendering of a UTC-aware pandas timestamp with whole-second
precision: YYYY-MM-DDTHH:MM:SS+00:00. A timezone-aware timestamp renders its
offset in the +00:00 form; datetime.isoformat never emits the Z suffix. -/
def isoformat (t : Int) : String :=
  let days := Int.ediv t 86400
  let secs := Int.emod t 86400
  let c := civilFromDays days
  pad4 c.1 ++ "-" ++ pad2 c.2.1 ++ "-" ++ pad2 c.2.2 ++ "T" ++
    pad2 (Int.ediv secs 3600) ++ ":" ++ pad2 (Int.emod (Int.ediv secs 60) 60) ++
    ":" ++ pad2 (Int.emod secs 60) ++ "+00:00"

/-- Split a character list at every occurrence of a separator character,
mirroring the string splitting the script relies on; written by structural
recursion so that concrete parses evaluate. -/
def splitOnChar (c : Char) : List Char → List (List Char)
  | [] => [[]]
  | x :: xs =>
    if x = c then [] :: splitOnChar c xs
    else
      match splitOnChar c xs with
      | y :: ys => (x :: y) :: ys
      | [] => [[x]]

/-- The numeric value of a decimal digit character. -/
def charDigit? (c : Char) : Option Nat :=
  if 48 ≤ c.toNat ∧ c.toNat ≤ 57 then some (c.toNat - 48) else Option.none

/-- Read a nonempty all-digit character list as a natural number. -/
def digitsToNatAux : Option Nat → List Char → Option Nat
  | acc, [] => acc
  | acc, c :: cs =>
    match charDigit? c with
    | Option.none => Option.none
    | some d =>
      match acc with
      | Option.none => digitsToNatAux (some d) cs
      | some n => digitsToNatAux (some (n * 10 + d)) cs

/-- Read a nonempty all-digit character list as a natural number. -/
def digitsToNat? (cs : List Char) : Option Nat :=
  digitsToNatAux Option.none cs

/-- Strip a trailing Z from a character list. -/
def dropFinalZ (cs : List Char) : Option (List Char) :=
  match cs.reverse with
  | 'Z' :: rest => some rest.reverse
  | _ => Option.none

/-- Parse the UTC subset of ISO-8601 accepted by pd.to_datetime that this
development models: YYYY-MM-DDTHH:MM:SSZ, with field range checks. Returns
seconds since the epoch. -/
def parseISO (s : String) : Option Int :=
  match splitOnChar 'T' s.data with
  | [date, time] =>
    (match dropFinalZ time with
     | Option.none => Option.none
     | some time2 =>
       match splitOnChar '-' date, splitOnChar ':' time2 with
       | [ys, ms, ds], [hs, mis, ss] =>
         (match digitsToNat? ys, digitsToNat? ms, digitsToNat? ds,
                digitsToNat? hs, digitsToNat? mis, digitsToNat? ss with
          | some y, some mo, some d, some hh, some mi, some sec =>
            if 1 ≤ mo ∧ mo ≤ 12 ∧ 1 ≤ d ∧ d ≤ 31 ∧ hh < 24 ∧ mi < 60 ∧ sec < 60 then
              some (toEpoch y mo d hh mi sec)
            else Option.none
          | _, _, _, _, _, _ => Option.none)
       | _, _ => Option.none)
  | _ => Option.none

/-- Embedding of the window computation in get_history_and_forecast (main.py
lines 121-138). If snapshot_time is falsy (absent or empty) the provider
relative tokens are used; otherwise it is parsed (pd.to_datetime, modelled by
parseISO for the UTC subset), one hour is subtracted for the start and five
days added for the end, and both are rendered with isoformat. Except.error
models the raise of pd.to_datetime on an unparseable string. -/
def compute_window (snapshot_time : Option String) : Except String (String × String) :=
  match snapshot_time with
  | Option.none => Except.ok ("nowMinus1h", "nowPlus5d")
  | some s =>
    if s = "" then Except.ok ("nowMinus1h", "nowPlus5d")
    else
      match parseISO s with
      | some t => Except.ok (isoformat (t - 3600), isoformat (t + 432000))
      | Option.none => Except.error "pd.to_datetime failed to parse the snapshot time"

/- ---------------------------------------------------------------------
   The assembled table: pandas DataFrame cells after the type
   normalization performed at the end of get_history_and_forecast.
   --------------------------------------------------------------------- -/

/-- A cell of the assembled table: a timestamp (after pd.to_datetime), a
float (after astype float, rationals standing for the floats that the code
never computes with), a string, or the missing value (NaN or NaT). -/
inductive Cell where
  | ts (t : Int)
  | num (q : ℚ)
  | str (s : String)
  | nan
deriving DecidableEq

/-- A dataframe: the column list together with the rows, each row a list of
cells aligned with the columns. -/
structure DataFrame where
  columns : List String
  rows : List (List Cell)
deriving DecidableEq

/-- Parse a decimal numeral with optional sign and fraction part, modelling
the float coercion Python applies to numeric strings in astype. -/
def parseDecimal (s : String) : Option ℚ :=
  let core : List Char → Option ℚ := fun t =>
    match splitOnChar '.' t with
    | [a] => (digitsToNat? a).map (fun n => (n : ℚ))
    | [a, b] =>
      (match digitsToNat? a, digitsToNat? b with
       | some n, some f => some ((n : ℚ) + (f : ℚ) / ((10 : ℚ) ^ b.length))
       | _, _ => Option.none)
    | _ => Option.none
  match s.data with
  | '-' :: rest => (core rest).map Neg.neg
  | cs => core cs

/-- Cell conversion for pd.to_datetime over the snapshot_time column
(main.py line 141): missing stays missing (NaT), an ISO string parses to a
timestamp, anything else raises. -/
def to_datetime_cell (v : Option Json) : Except String Cell :=
  match v with
  | Option.none => Except.ok Cell.nan
  | some (Json.str s) =>
    (match parseISO s with
     | some t => Except.ok (Cell.ts t)
     | Option.none => Except.error "pd.to_datetime failed to parse a cell")
  | some _ => Except.error "pd.to_datetime failed to parse a cell"

/-- Cell conversion for astype float over latitude and longitude (main.py
lines 142-143): missing stays missing (NaN), numbers stay numbers, numeric
strings are coerced, anything else raises. -/
def astype_float_cell (v : Option Json) : Except String Cell :=
  match v with
  | Option.none => Except.ok Cell.nan
  | some (Json.num q) => Except.ok (Cell.num q)
  | some (Json.str s) =>
    (match parseDecimal s with
     | some q => Except.ok (Cell.num q)
     | Option.none => Except.error "astype float failed on a cell")
  | some _ => Except.error "astype float failed on a cell"

/-- Cell conversion for the untouched temperature and wind_speed columns:
the dataframe stores scalars as is; nested containers are outside the model. -/
def plain_cell (v : Option Json) : Except String Cell :=
  match v with
  | Option.none => Except.ok Cell.nan
  | some (Json.num q) => Except.ok (Cell.num q)
  | some (Json.str s) => Except.ok (Cell.str s)
  | some _ => Except.error "unsupported cell value"

/-- Select the canonical columns from a record dict, in canonical order, the
way the DataFrame constructor with an explicit column list does; a missing
key yields the missing value. -/
def selectRow (d : Dict) : List (Option Json) :=
  COLUMNS.map (fun c => jget d c)

/-- Normalize one selected row, the row-wise restatement of the three
column-wise conversions at main.py lines 141-143. -/
def normalize_row (vs : List (Option Json)) : Except String (List Cell) :=
  match vs with
  | [st, la, lo, te, ws] => do
    let c0 ← to_datetime_cell st
    let c1 ← astype_float_cell la
    let c2 ← astype_float_cell lo
    let c3 ← plain_cell te
    let c4 ← plain_cell ws
    Except.ok [c0, c1, c2, c3, c4]
  | _ => Except.error "unexpected row shape"

/-- A cell carries the datetime dtype: a timestamp, or NaT as the missing
value of that dtype. -/
def isTimeCell : Cell → Bool
  | Cell.ts _ => true
  | Cell.nan => true
  | _ => false

/-- A cell carries the float dtype: a number, or NaN as the missing value of
that dtype. -/
def isFloatCell : Cell → Bool
  | Cell.num _ => true
  | Cell.nan => true
  | _ => false

/-- Effectful map over a list in the Except monad, first failure aborting. -/
def mapExcept (f : α → Except String β) : List α → Except String (List β)
  | [] => Except.ok []
  | a :: as => do
    let b ← f a
    let bs ← mapExcept f as
    Except.ok (b :: bs)

/-- Effectful map over a list in the Option monad, first failure aborting. -/
def mapOption (f : α → Option β) : List α → Option (List β)
  | [] => some []
  | a :: as =>
    match f a, mapOption f as with
    | some b, some bs => some (b :: bs)
    | _, _ => Option.none

/-- Embedding of the table assembly in get_history_and_forecast (main.py
lines 139-145): build the dataframe over COLUMNS from the fetched record
dicts, then normalize the snapshot_time, latitude and longitude columns. -/
def build_table (rows : List Dict) : Except String DataFrame := do
  let cells ← mapExcept (fun d => normalize_row (selectRow d)) rows
  Except.ok ⟨COLUMNS, cells⟩

/- ---------------------------------------------------------------------
   The fetcher (main.py lines 52-102). The HTTP layer is an oracle from a
   location to either an error (non-success status raised by
   raise_for_status, or a network failure) or the parsed JSON body.
   --------------------------------------------------------------------- -/

/-- Extraction of the data timelines 0 intervals path from the response body
(main.py line 93); Option.none models the KeyError, IndexError or TypeError
raise on an unexpected shape. -/
def extract_intervals (body : Json) : Option (List Json) :=
  match body with
  | Json.obj kvs =>
    (match jget kvs "data" with
     | some (Json.obj dkvs) =>
       (match jget dkvs "timelines" with
        | some (Json.arr (t0 :: _)) =>
          (match t0 with
           | Json.obj tkvs =>
             (match jget tkvs "intervals" with
              | some (Json.arr ivs) => some ivs
              | _ => Option.none)
           | _ => Option.none)
        | _ => Option.none)
     | _ => Option.none)
  | _ => Option.none

/-- Transform one raw interval element: it must be a dict, then transform_row
applies (main.py line 96). -/
def transform_json (ivl : Json) (loc : Dict) : Option Dict :=
  match ivl with
  | Json.obj kvs => transform_row kvs loc
  | _ => Option.none

/-- The per-location body of the fetch loop: issue the request, check the
status, extract the intervals, transform each interval in order. -/
def location_rows (http : Dict → Except String Json) (loc : Dict) :
    Except String (List Dict) := do
  let body ← http loc
  match extract_intervals body with
  | Option.none => Except.error "unexpected response shape"
  | some ivs =>
    match mapOption (fun i => transform_json i loc) ivs with
    | some rows => Except.ok rows
    | Option.none => Except.error "missing field in an interval"

/-- The fetch loop of fetch_weather_data (main.py lines 72-102): the rows
accumulator grows location by location, the first failure aborting the
whole fetch. -/
def fetch_loop (http : Dict → Except String Json) :
    List Dict → List Dict → Except String (List Dict)
  | acc, [] => Except.ok acc
  | acc, loc :: rest => do
    let rows ← location_rows http loc
    fetch_loop http (acc ++ rows) rest

/-- Embedding of fetch_weather_data (main.py lines 52-102). -/
def fetch_weather_data (http : Dict → Except String Json) (locations : List Dict) :
    Except String (List Dict) :=
  fetch_loop http [] locations

/-- Embedding of get_history_and_forecast (main.py lines 105-145): compute
the window, fetch with it, assemble and normalize the table. The http oracle
receives the start and end window arguments the fetcher is invoked with. -/
def get_history_and_forecast (http : String → String → Dict → Except String Json)
    (locations : List Dict) (snapshot_time : Option String) :
    Except String DataFrame := do
  let w ← compute_window snapshot_time
  let rows ← fetch_weather_data (http w.1 w.2) locations
  build_table rows

/- ---------------------------------------------------------------------
   The upsert loader (main.py lines 148-211). Database tables are lists of
   rows; a row is an association list from column name to cell; the
   database maps qualified table names to tables. The MERGE statement the
   code builds by string templating is given its relational semantics:
   match ON the AND-conjunction of target.c = source.c over pk_cols, WHEN
   MATCHED update the non-key df.columns from source, WHEN NOT MATCHED
   insert the full row.
   --------------------------------------------------------------------- -/

/-- A database row: column name to cell, in column order. -/
abbrev DRow := List (String × Cell)

/-- Column access in a row. -/
def getCol (r : DRow) (c : String) : Option Cell :=
  List.lookup c r

/-- The keys of an association list. -/
def keysOf (l : List (String × α)) : List String :=
  l.map Prod.fst

/-- Replace the value at a key in an association list, leaving other entries
unchanged. -/
def assocSet (l : List (String × α)) (c : String) (v : α) : List (String × α) :=
  l.map (fun p => if p.1 = c then (c, v) else p)

/-- The match condition of the merge statement: the AND-conjunction of
target.c = source.c over exactly the key columns (main.py lines 185-187). -/
def matchRows (pk : List String) (t s : DRow) : Bool :=
  pk.all (fun c => decide (getCol t c = getCol s c))

/-- The UPDATE SET assignment list of the merge statement: one assignment
c = source.c for every table column not among the key columns (main.py
lines 188-190). -/
def updAssignments (cols pk : List String) (s : DRow) : List (String × Cell) :=
  (cols.filter (fun c => decide (c ∉ pk))).map (fun c => (c, (getCol s c).getD Cell.nan))

/-- Apply a list of assignments to a row, in order. -/
def applyUpdates (upds : List (String × Cell)) (r : DRow) : DRow :=
  upds.foldl (fun acc p => assocSet acc p.1 p.2) r

/-- The action of the merge on one target row: the first staging row whose
key columns all agree is found and its assignment list applied; a target row
without a match is left unchanged. -/
def mergeUpd (cols pk : List String) (staging : List DRow) (t : DRow) : DRow :=
  match staging.find? (fun s => matchRows pk t s) with
  | some s => applyUpdates (updAssignments cols pk s) t
  | Option.none => t

/-- Relational semantics of the MERGE INTO statement built at main.py lines
196-205: every target row matched by a staging row is updated by the
assignment list taken from that staging row; unmatched target rows stay;
staging rows matching no target row are inserted whole, in staging order. -/
def mergeInto (cols pk : List String) (target staging : List DRow) : List DRow :=
  target.map (mergeUpd cols pk staging)
  ++ staging.filter (fun s => !(target.any (fun t => matchRows pk t s)))

/-- The database: qualified table name to table. -/
structure DB where
  tables : List (String × List DRow)
deriving DecidableEq

/-- Read a table. -/
def DB.get (db : DB) (name : String) : Option (List DRow) :=
  List.lookup name db.tables

/-- Write a table, replacing it if present and creating it otherwise,
modelling to_sql with if_exists replace. -/
def DB.set (db : DB) (name : String) (rows : List DRow) : DB :=
  if name ∈ keysOf db.tables then ⟨assocSet db.tables name rows⟩
  else ⟨db.tables ++ [(name, rows)]⟩

/-- The records of a dataframe as database rows: each row zipped with the
column list, the shape to_sql writes. -/
def dfRecords (df : DataFrame) : List DRow :=
  df.rows.map (fun r => df.columns.zip r)

/-- Embedding of upsert_to_postgres (main.py lines 148-211): reflect the
destination table (error when it does not exist, as autoload_with raises),
write the staging table temp_ name with if_exists replace, execute the merge
from the staging table into the destination, commit. The code never drops
the staging table. -/
def upsert_to_postgres (df : DataFrame) (table_name schema : String) (db : DB)
    (pk_cols : List String) : Except String DB :=
  let temp_table := schema ++ ".temp_" ++ table_name
  let target_full := schema ++ "." ++ table_name
  match db.get target_full with
  | Option.none => Except.error "NoSuchTableError: the destination table must exist"
  | some target_rows =>
    let db1 := db.set temp_table (dfRecords df)
    let source_rows := (db1.get temp_table).getD []
    let merged := mergeInto df.columns pk_cols target_rows source_rows
    Except.ok (db1.set target_full merged)

/- ---------------------------------------------------------------------
   The ETL driver (crontab_etl_script.py). Subprocess execution is an
   oracle from the command line to success or failure; printed lines are
   collected. Python call arity is modelled explicitly because the
   top-level calls pass a single argument to a two-parameter function.
   --------------------------------------------------------------------- -/

/-- Embedding of run_docker_container (crontab_etl_script.py lines 4-9),
given both parameters: run the command; a CalledProcessError is caught and
a line is printed, so the function itself never propagates a failure. -/
def run_docker_container (sysRun : String → Bool) (container_name command : String) :
    List String :=
  if sysRun ("docker run --rm " ++ container_name ++ " " ++ command) then []
  else ["Error running container " ++ container_name ++ ": CalledProcessError"]

/-- A Python-level call of run_docker_container with an argument list: the
interpreter checks arity before the body runs, raising TypeError unless
exactly the two positional arguments are supplied. -/
def call_run_docker_container (sysRun : String → Bool) (args : List String) :
    Except String (List String) :=
  match args with
  | [container_name, command] => Except.ok (run_docker_container sysRun container_name command)
  | _ => Except.error "TypeError: run_docker_container() missing 1 required positional argument: command"

/-- Embedding of the top level of crontab_etl_script.py (lines 12-16): the
extraction step call, then the loading step call, each with the single
argument the script passes. -/
def crontab_etl_script (sysRun : String → Bool) : Except String (List String) := do
  let l1 ← call_run_docker_container sysRun ["extractor-container"]
  let l2 ← call_run_docker_container sysRun ["loader-container"]
  Except.ok (l1 ++ l2)

/- ---------------------------------------------------------------------
   Concrete data used by witnesses and counterexamples.
   --------------------------------------------------------------------- -/

/-- The raw interval of the unit test (test_transform_row.py lines 9-15). -/
def exInterval : Json :=
  Json.obj [("startTime", Json.str "2024-11-22T10:00:00Z"),
            ("values", Json.obj [("temperature", Json.num 21.5), ("windSpeed", Json.num 5.2)])]

/-- The location of the unit test (test_transform_row.py lines 16-19). -/
def exLoc : Dict :=
  [("lat", Json.num 40.7128), ("lon", Json.num (-74.0060))]

/-- A provider response body holding one timeline with one interval. -/
def exBody : Json :=
  Json.obj [("data", Json.obj [("timelines",
    Json.arr [Json.obj [("intervals", Json.arr [exInterval])]])])]

/-- An HTTP oracle that answers every request with exBody. -/
def exHttp : String → String → Dict → Except String Json :=
  fun _ _ _ => Except.ok exBody

/-- An HTTP oracle whose every request fails with a non-success status. -/
def exHttpFail : Dict → Except String Json :=
  fun _ => Except.error "HTTPError: 500 Server Error"

/-- A small source dataframe over the canonical columns, used to exercise the
upsert loader. -/
def exDf : DataFrame :=
  ⟨["snapshot_time", "latitude", "longitude", "temperature", "wind_speed"],
   [[Cell.ts 100, Cell.num 1, Cell.num 2, Cell.num 20, Cell.num 5]]⟩

/-- A database whose destination table is seeded with one pre-existing row
sharing the key of the source row (different temperature). -/
def exDb : DB :=
  ⟨[("s.t", [[("snapshot_time", Cell.ts 100), ("latitude", Cell.num 1),
              ("longitude", Cell.num 2), ("temperature", Cell.num 15),
              ("wind_speed", Cell.num 3)]])]⟩

/-- The key columns the main block passes (main.py line 229). -/
def exPk : List String :=
  ["latitude", "longitude", "snapshot_time"]

/-- The database state after one run of the upsert loader on the example. -/
def exDbAfter : DB :=
  (upsert_to_postgres exDf "t" "s" exDb exPk).toOption.getD ⟨[]⟩

/-- The raw row of the unit test, as a dict. -/
def exRow1 : Dict :=
  [("startTime", Json.str "2024-11-22T10:00:00Z"),
   ("values", Json.obj [("temperature", Json.num 21.5), ("windSpeed", Json.num 5.2)])]

/-- The same row with extra fields at the top level and inside values. -/
def exRow2 : Dict :=
  [("cloudCover", Json.num 1),
   ("startTime", Json.str "2024-11-22T10:00:00Z"),
   ("values", Json.obj [("temperature", Json.num 21.5), ("windSpeed", Json.num 5.2),
                        ("gustSpeed", Json.num 9)])]

/-- The test location with an extra field. -/
def exLoc2 : Dict :=
  [("lat", Json.num 40.7128), ("lon", Json.num (-74.0060)), ("name", Json.str "NYC")]

/-- The table the assembler produces from one exBody response for exLoc. -/
def exDfOut : DataFrame :=
  ⟨COLUMNS, [[Cell.ts 1732269600, Cell.num 40.7128, Cell.num (-74.0060),
              Cell.num 21.5, Cell.num 5.2]]⟩

/-- A two-column layout used to exercise the merge semantics. -/
def exCols : List String := ["latitude", "temperature"]

/-- A destination row for the merge example. -/
def exTgtRow : DRow := [("latitude", Cell.num 1), ("temperature", Cell.num 15)]

/-- A staging row matching exTgtRow on the key. -/
def exStgRow : DRow := [("latitude", Cell.num 1), ("temperature", Cell.num 20)]

/-- A staging row matching no destination row. -/
def exStgRow2 : DRow := [("latitude", Cell.num 3), ("temperature", Cell.num 4)]

/-- The seeded destination rows of exDb. -/
def exSeedRows : List DRow :=
  [[("snapshot_time", Cell.ts 100), ("latitude", Cell.num 1), ("longitude", Cell.num 2),
    ("temperature", Cell.num 15), ("wind_speed", Cell.num 3)]]

/- ---------------------------------------------------------------------
   General helper lemmas.
   --------------------------------------------------------------------- -/

theorem except_bind_ok {α β : Type} (a : α) (f : α → Except String β) :
    (Except.ok a >>= f : Except String β) = f a := rfl

theorem except_bind_error {α β : Type} (e : String) (f : α → Except String β) :
    (Except.error e >>= f : Except String β) = Except.error e := rfl

theorem mapOption_eq_map {α β : Type} (f : α → Option β) (g : α → β) :
    ∀ (l : List α), (∀ a ∈ l, f a = some (g a)) → mapOption f l = some (l.map g) := by
  intro l
  induction l with
  | nil => intro _; rfl
  | cons a as ih =>
    intro h
    have ha := h a (List.mem_cons_self a as)
    have has := ih (fun x hx => h x (List.mem_cons_of_mem a hx))
    simp [mapOption, ha, has]

theorem mapExcept_eq_map {α β : Type} (f : α → Except String β) (g : α → β) :
    ∀ (l : List α), (∀ a ∈ l, f a = Except.ok (g a)) →
      mapExcept f l = Except.ok (l.map g) := by
  intro l
  induction l with
  | nil => intro _; rfl
  | cons a as ih =>
    intro h
    have ha := h a (List.mem_cons_self a as)
    have has := ih (fun x hx => h x (List.mem_cons_of_mem a hx))
    simp [mapExcept, ha, has, except_bind_ok]

theorem mapExcept_mem {α β : Type} (f : α → Except String β) :
    ∀ (l : List α) (bs : List β), mapExcept f l = Except.ok bs →
      ∀ b ∈ bs, ∃ a ∈ l, f a = Except.ok b := by
  intro l
  induction l with
  | nil =>
    intro bs h b hb
    simp [mapExcept] at h
    subst h
    cases hb
  | cons a as ih =>
    intro bs h b hb
    cases hfa : f a with
    | error e => rw [mapExcept, hfa, except_bind_error] at h; cases h
    | ok b0 =>
      rw [mapExcept, hfa, except_bind_ok] at h
      cases hrest : mapExcept f as with
      | error e => rw [hrest, except_bind_error] at h; cases h
      | ok bs0 =>
        rw [hrest, except_bind_ok] at h
        cases h
        rcases List.mem_cons.mp hb with hb0 | hbs
        · exact ⟨a, List.mem_cons_self a as, by rw [hfa, hb0]⟩
        · rcases ih bs0 hrest b hbs with ⟨a0, ha0, hfa0⟩
          exact ⟨a0, List.mem_cons_of_mem a ha0, hfa0⟩

/- ---------------------------------------------------------------------
   C1: the query window.
   --------------------------------------------------------------------- -/

/-- C1 (counterexample): at snapshot_time 2024-01-10T00:00:00Z the window
strings the code computes are not the Z-suffixed strings the claim states:
pandas isoformat renders the UTC offset as +00:00. -/
theorem window_z_suffix_cex :
    compute_window (some "2024-01-10T00:00:00Z") ≠
      Except.ok ("2024-01-09T23:00:00Z", "2024-01-15T00:00:00Z") := by
  decide

/-- C1 (amended): if snapshot_time is absent the fetcher window is the pair
of relative tokens nowMinus1h and nowPlus5d; if snapshot_time is present and
parses to the epoch instant t, the window is the pair of absolute ISO-8601
strings for t minus one hour and t plus five days, rendered by isoformat
with the +00:00 offset form; in particular for 2024-01-10T00:00:00Z the
start is 2024-01-09T23:00:00+00:00 and the end is 2024-01-15T00:00:00+00:00. -/
theorem window_computation (s : String) (t : Int) (hp : parseISO s = some t) :
    compute_window Option.none = Except.ok ("nowMinus1h", "nowPlus5d") ∧
    compute_window (some s) = Except.ok (isoformat (t - 3600), isoformat (t + 432000)) ∧
    compute_window (some "2024-01-10T00:00:00Z") =
      Except.ok ("2024-01-09T23:00:00+00:00", "2024-01-15T00:00:00+00:00") := by
  refine ⟨rfl, ?_, by decide⟩
  have hs : s ≠ "" := by
    intro h
    have h0 : parseISO "" = Option.none := rfl
    rw [h, h0] at hp
    cases hp
  simp [compute_window, hs, hp]

/-- C1 (witness): the amended window theorem at the concrete snapshot of the
spec example. -/
theorem window_computation_witness :
    parseISO "2024-01-10T00:00:00Z" = some 1704844800 ∧
    (compute_window Option.none = Except.ok ("nowMinus1h", "nowPlus5d") ∧
     compute_window (some "2024-01-10T00:00:00Z") =
       Except.ok (isoformat (1704844800 - 3600), isoformat (1704844800 + 432000)) ∧
     compute_window (some "2024-01-10T00:00:00Z") =
       Except.ok ("2024-01-09T23:00:00+00:00", "2024-01-15T00:00:00+00:00")) :=
  ⟨by decide, window_computation "2024-01-10T00:00:00Z" 1704844800 (by decide)⟩

/- ---------------------------------------------------------------------
   C2: the literal transform test.
   --------------------------------------------------------------------- -/

/-- C2: transform_row, embedded as a total function (hence free of side
effects), maps the literal test row and location to exactly the expected
record, field for field, numbers preserved as numbers (40.7128, minus
74.0060 and minus 74.006 denote the same rational) and the timestamp string
passed through unmodified. -/
theorem transform_row_literal :
    transform_row
      [("startTime", Json.str "2024-11-22T10:00:00Z"),
       ("values", Json.obj [("temperature", Json.num 21.5), ("windSpeed", Json.num 5.2)])]
      [("lat", Json.num 40.7128), ("lon", Json.num (-74.0060))]
    = some [("latitude", Json.num 40.7128), ("longitude", Json.num (-74.006)),
            ("snapshot_time", Json.str "2024-11-22T10:00:00Z"),
            ("temperature", Json.num 21.5), ("wind_speed", Json.num 5.2)] := by
  simp [transform_row, jget, List.lookup]
  norm_num

/- ---------------------------------------------------------------------
   C8: the ETL driver.
   --------------------------------------------------------------------- -/

/-- C8 (code bug): for every subprocess oracle, the driver script raises
TypeError at its first top-level call, because run_docker_container is
called with the required command argument missing; consequently the extract
step body never runs and the load step is never attempted, contrary to the
claimed catch-log-and-continue behavior. -/
theorem etl_driver_type_error (sysRun : String → Bool) :
    crontab_etl_script sysRun =
      Except.error "TypeError: run_docker_container() missing 1 required positional argument: command" :=
  rfl

/- ---------------------------------------------------------------------
   C9: noninterference of transform_row.
   --------------------------------------------------------------------- -/

theorem transform_row_eq_proj (row loc : Dict) :
    transform_row row loc =
      transformOfProj (jget loc "lat") (jget loc "lon") (projStartTime row)
        (projValues row "temperature") (projValues row "windSpeed") := by
  simp only [transform_row, transformOfProj, projStartTime, projValues]
  cases hv : jget row "values" with
  | none =>
    cases jget loc "lat" <;> cases jget loc "lon" <;> cases jget row "startTime" <;> rfl
  | some v =>
    cases v with
    | obj kvs => rfl
    | num q =>
      cases jget loc "lat" <;> cases jget loc "lon" <;> cases jget row "startTime" <;> rfl
    | str s =>
      cases jget loc "lat" <;> cases jget loc "lon" <;> cases jget row "startTime" <;> rfl
    | arr xs =>
      cases jget loc "lat" <;> cases jget loc "lon" <;> cases jget row "startTime" <;> rfl

/-- C9: transform_row reads only row startTime, the temperature and windSpeed
entries of row values, and location lat and lon; two input pairs agreeing on
those five projections produce equal outputs, so any extra fields are
without effect. -/
theorem transform_row_noninterference (row row' loc loc' : Dict)
    (hst : projStartTime row = projStartTime row')
    (ht : projValues row "temperature" = projValues row' "temperature")
    (hw : projValues row "windSpeed" = projValues row' "windSpeed")
    (hla : jget loc "lat" = jget loc' "lat")
    (hlo : jget loc "lon" = jget loc' "lon") :
    transform_row row loc = transform_row row' loc' := by
  rw [transform_row_eq_proj, transform_row_eq_proj, hst, ht, hw, hla, hlo]

/-- C9 (witness): the test row and location against versions carrying extra
fields; the five projections agree and the outputs coincide. -/
theorem transform_row_noninterference_witness :
    projStartTime exRow1 = projStartTime exRow2 ∧
    transform_row exRow1 exLoc = transform_row exRow2 exLoc2 :=
  ⟨rfl, transform_row_noninterference exRow1 exRow2 exLoc exLoc2 rfl rfl rfl rfl rfl⟩

/- ---------------------------------------------------------------------
   C7: failure propagation of the fetch.
   --------------------------------------------------------------------- -/

theorem fetch_loop_error (http : Dict → Except String Json) (loc : Dict) (e : String)
    (hfail : http loc = Except.error e) :
    ∀ (locs : List Dict) (acc : List Dict), loc ∈ locs →
      ∃ msg, fetch_loop http acc locs = Except.error msg := by
  intro locs
  induction locs with
  | nil => intro acc h; cases h
  | cons l rest ih =>
    intro acc hmem
    rcases List.mem_cons.mp hmem with heq | hrest
    · subst heq
      exact ⟨e, by simp [fetch_loop, location_rows, hfail, except_bind_error]⟩
    · cases hl : location_rows http l with
      | error msg => exact ⟨msg, by simp [fetch_loop, hl, except_bind_error]⟩
      | ok rows =>
        rcases ih (acc ++ rows) hrest with ⟨msg, hmsg⟩
        exact ⟨msg, by simp [fetch_loop, hl, except_bind_ok, hmsg]⟩

/-- C7: the fetch is all or nothing; if the HTTP call for any one location
in the list fails, fetch_weather_data propagates an error and returns no
row list at all, so no rows from any other location reach the output. -/
theorem fetch_failure_all_or_nothing (http : Dict → Except String Json)
    (locations : List Dict) (loc : Dict) (e : String)
    (hmem : loc ∈ locations) (hfail : http loc = Except.error e) :
    (∃ msg, fetch_weather_data http locations = Except.error msg) ∧
    (∀ rows, fetch_weather_data http locations ≠ Except.ok rows) := by
  rcases fetch_loop_error http loc e hfail locations [] hmem with ⟨msg, hmsg⟩
  refine ⟨⟨msg, hmsg⟩, ?_⟩
  intro rows hok
  rw [fetch_weather_data, hmsg] at hok
  cases hok

/-- C7 (witness): one failing location aborts the fetch of a two-location
list. -/
theorem fetch_failure_witness :
    exLoc ∈ [exLoc, exLoc2] ∧
    exHttpFail exLoc = Except.error "HTTPError: 500 Server Error" ∧
    ((∃ msg, fetch_weather_data exHttpFail [exLoc, exLoc2] = Except.error msg) ∧
     (∀ rows, fetch_weather_data exHttpFail [exLoc, exLoc2] ≠ Except.ok rows)) :=
  ⟨List.mem_cons_self exLoc [exLoc2], rfl,
   fetch_failure_all_or_nothing exHttpFail [exLoc, exLoc2] exLoc
     "HTTPError: 500 Server Error" (List.mem_cons_self exLoc [exLoc2]) rfl⟩

/- ---------------------------------------------------------------------
   C10: row order of the assembled table.
   --------------------------------------------------------------------- -/

theorem location_rows_ok (http : Dict → Except String Json) (loc : Dict)
    (body : Json) (ivs : List Json) (tr : Json → Dict)
    (hb : http loc = Except.ok body) (hiv : extract_intervals body = some ivs)
    (htr : ∀ i ∈ ivs, transform_json i loc = some (tr i)) :
    location_rows http loc = Except.ok (ivs.map tr) := by
  have hm := mapOption_eq_map (fun i => transform_json i loc) tr ivs htr
  simp [location_rows, hb, except_bind_ok, hiv, hm]

theorem fetch_loop_ok (http : Dict → Except String Json) (rs : Dict → List Dict) :
    ∀ (locs : List Dict) (acc : List Dict),
      (∀ loc ∈ locs, location_rows http loc = Except.ok (rs loc)) →
      fetch_loop http acc locs = Except.ok (acc ++ (locs.map rs).flatten) := by
  intro locs
  induction locs with
  | nil => intro acc _; simp [fetch_loop]
  | cons l rest ih =>
    intro acc h
    have hl := h l (List.mem_cons_self l rest)
    have hrest := ih (acc ++ rs l) (fun x hx => h x (List.mem_cons_of_mem l hx))
    simp [fetch_loop, hl, except_bind_ok, hrest, List.append_assoc]

/-- C10: when every location answers, the rows assembled by
get_history_and_forecast are the concatenation, in input order of the
locations, of each location transformed intervals in the order the provider
returned them; build_table then maps normalization over that concatenation
row by row, preserving the order into the final table. -/
theorem assembled_row_order (http : String → String → Dict → Except String Json)
    (locations : List Dict) (snap : Option String) (s e : String)
    (body : Dict → Json) (ivs : Dict → List Json) (tr : Dict → Json → Dict)
    (nr : Dict → List Cell)
    (hw : compute_window snap = Except.ok (s, e))
    (hb : ∀ loc ∈ locations, http s e loc = Except.ok (body loc))
    (hiv : ∀ loc ∈ locations, extract_intervals (body loc) = some (ivs loc))
    (htr : ∀ loc ∈ locations, ∀ i ∈ ivs loc, transform_json i loc = some (tr loc i))
    (hn : ∀ r ∈ (locations.map (fun loc => (ivs loc).map (fun i => tr loc i))).flatten,
        normalize_row (selectRow r) = Except.ok (nr r)) :
    fetch_weather_data (http s e) locations =
      Except.ok ((locations.map (fun loc => (ivs loc).map (fun i => tr loc i))).flatten) ∧
    get_history_and_forecast http locations snap =
      Except.ok ⟨COLUMNS,
        ((locations.map (fun loc => (ivs loc).map (fun i => tr loc i))).flatten).map nr⟩ := by
  have hfetch : fetch_weather_data (http s e) locations =
      Except.ok ((locations.map (fun loc => (ivs loc).map (fun i => tr loc i))).flatten) := by
    rw [fetch_weather_data]
    have := fetch_loop_ok (http s e) (fun loc => (ivs loc).map (fun i => tr loc i))
      locations []
      (fun loc hloc => location_rows_ok (http s e) loc (body loc) (ivs loc) (tr loc)
        (hb loc hloc) (hiv loc hloc) (htr loc hloc))
    simpa using this
  refine ⟨hfetch, ?_⟩
  have hbuild := mapExcept_eq_map (fun d => normalize_row (selectRow d)) nr
    ((locations.map (fun loc => (ivs loc).map (fun i => tr loc i))).flatten) hn
  simp [get_history_and_forecast, hw, except_bind_ok, hfetch, build_table, hbuild]

/-- C10 (witness): one location with one interval, assembled end to end. -/
theorem assembled_row_order_witness :
    compute_window Option.none = Except.ok ("nowMinus1h", "nowPlus5d") ∧
    (fetch_weather_data (exHttp "nowMinus1h" "nowPlus5d") [exLoc] =
       Except.ok (([exLoc].map (fun loc => ([exInterval].map (fun i =>
         (transform_json i loc).getD [])))).flatten) ∧
     get_history_and_forecast exHttp [exLoc] Option.none =
       Except.ok ⟨COLUMNS,
         (([exLoc].map (fun loc => ([exInterval].map (fun i =>
           (transform_json i loc).getD [])))).flatten).map
           (fun _ => [Cell.ts 1732269600, Cell.num 40.7128, Cell.num (-74.0060),
                      Cell.num 21.5, Cell.num 5.2])⟩) := by
  refine ⟨rfl, ?_⟩
  refine assembled_row_order exHttp [exLoc] Option.none "nowMinus1h" "nowPlus5d"
    (fun _ => exBody) (fun _ => [exInterval])
    (fun loc i => (transform_json i loc).getD [])
    (fun _ => [Cell.ts 1732269600, Cell.num 40.7128, Cell.num (-74.0060),
               Cell.num 21.5, Cell.num 5.2])
    rfl ?_ ?_ ?_ ?_
  · intro loc _; rfl
  · intro loc hloc
    rcases List.mem_singleton.mp hloc with rfl
    rfl
  · intro loc hloc i hi
    rcases List.mem_singleton.mp hloc with rfl
    rcases List.mem_singleton.mp hi with rfl
    rfl
  · intro r hr
    rcases List.mem_singleton.mp hr with rfl
    rfl

/- ---------------------------------------------------------------------
   C5: the table shape invariant.
   --------------------------------------------------------------------- -/

theorem to_datetime_cell_ok (v : Option Json) (c : Cell)
    (h : to_datetime_cell v = Except.ok c) : isTimeCell c = true := by
  cases v with
  | none => cases h; rfl
  | some j =>
    cases j with
    | str s =>
      rw [to_datetime_cell] at h
      cases hp : parseISO s with
      | none => rw [hp] at h; cases h
      | some t => rw [hp] at h; cases h; rfl
    | num q => cases h
    | obj kvs => cases h
    | arr xs => cases h

theorem astype_float_cell_ok (v : Option Json) (c : Cell)
    (h : astype_float_cell v = Except.ok c) : isFloatCell c = true := by
  cases v with
  | none => cases h; rfl
  | some j =>
    cases j with
    | num q => cases h; rfl
    | str s =>
      rw [astype_float_cell] at h
      cases hp : parseDecimal s with
      | none => rw [hp] at h; cases h
      | some q => rw [hp] at h; cases h; rfl
    | obj kvs => cases h
    | arr xs => cases h

theorem normalize_row_shape (d : Dict) (r : List Cell)
    (h : normalize_row (selectRow d) = Except.ok r) :
    ∃ c0 c1 c2 c3 c4, r = [c0, c1, c2, c3, c4] ∧
      isTimeCell c0 = true ∧ isFloatCell c1 = true ∧ isFloatCell c2 = true := by
  rw [show selectRow d = [jget d "snapshot_time", jget d "latitude", jget d "longitude",
        jget d "temperature", jget d "wind_speed"] from rfl] at h
  rw [normalize_row] at h
  cases h0 : to_datetime_cell (jget d "snapshot_time") with
  | error e0 => rw [h0, except_bind_error] at h; cases h
  | ok c0 =>
    rw [h0, except_bind_ok] at h
    cases h1 : astype_float_cell (jget d "latitude") with
    | error e1 => rw [h1, except_bind_error] at h; cases h
    | ok c1 =>
      rw [h1, except_bind_ok] at h
      cases h2 : astype_float_cell (jget d "longitude") with
      | error e2 => rw [h2, except_bind_error] at h; cases h
      | ok c2 =>
        rw [h2, except_bind_ok] at h
        cases h3 : plain_cell (jget d "temperature") with
        | error e3 => rw [h3, except_bind_error] at h; cases h
        | ok c3 =>
          rw [h3, except_bind_ok] at h
          cases h4 : plain_cell (jget d "wind_speed") with
          | error e4 => rw [h4, except_bind_error] at h; cases h
          | ok c4 =>
            rw [h4, except_bind_ok] at h
            cases h
            exact ⟨c0, c1, c2, c3, c4, rfl,
              to_datetime_cell_ok _ _ h0, astype_float_cell_ok _ _ h1,
              astype_float_cell_ok _ _ h2⟩

theorem build_table_shape (rows : List Dict) (df : DataFrame)
    (h : build_table rows = Except.ok df) :
    df.columns = COLUMNS ∧
    ∀ r ∈ df.rows, ∃ c0 c1 c2 c3 c4, r = [c0, c1, c2, c3, c4] ∧
      isTimeCell c0 = true ∧ isFloatCell c1 = true ∧ isFloatCell c2 = true := by
  rw [build_table] at h
  cases hm : mapExcept (fun d => normalize_row (selectRow d)) rows with
  | error e => rw [hm, except_bind_error] at h; cases h
  | ok cells =>
    rw [hm, except_bind_ok] at h
    cases h
    refine ⟨rfl, ?_⟩
    intro r hr
    rcases mapExcept_mem _ rows cells hm r hr with ⟨d, _, hnorm⟩
    exact normalize_row_shape d r hnorm

/-- C5: every table get_history_and_forecast returns has exactly the five
canonical columns in canonical order, its snapshot_time cells carry the
datetime dtype and its latitude and longitude cells the float dtype; and the
assembly of the empty row list succeeds with the five columns and no rows. -/
theorem table_shape (http : String → String → Dict → Except String Json)
    (locations : List Dict) (snap : Option String) (df : DataFrame)
    (h : get_history_and_forecast http locations snap = Except.ok df) :
    df.columns = COLUMNS ∧
    (∀ r ∈ df.rows, ∃ c0 c1 c2 c3 c4, r = [c0, c1, c2, c3, c4] ∧
        isTimeCell c0 = true ∧ isFloatCell c1 = true ∧ isFloatCell c2 = true) ∧
    build_table [] = Except.ok ⟨COLUMNS, []⟩ := by
  rw [get_history_and_forecast] at h
  cases hw : compute_window snap with
  | error e => rw [hw, except_bind_error] at h; cases h
  | ok w =>
    rw [hw, except_bind_ok] at h
    cases hf : fetch_weather_data (http w.1 w.2) locations with
    | error e => rw [hf, except_bind_error] at h; cases h
    | ok rows =>
      rw [hf, except_bind_ok] at h
      rcases build_table_shape rows df h with ⟨hc, hs⟩
      exact ⟨hc, hs, rfl⟩

/-- C5 (witness): the assembled example table, with one row, satisfies the
shape invariant. -/
theorem table_shape_witness :
    get_history_and_forecast exHttp [exLoc] Option.none = Except.ok exDfOut ∧
    (exDfOut.columns = COLUMNS ∧
     (∀ r ∈ exDfOut.rows, ∃ c0 c1 c2 c3 c4, r = [c0, c1, c2, c3, c4] ∧
         isTimeCell c0 = true ∧ isFloatCell c1 = true ∧ isFloatCell c2 = true) ∧
     build_table [] = Except.ok ⟨COLUMNS, []⟩) :=
  ⟨by rfl, table_shape exHttp [exLoc] Option.none exDfOut (by rfl)⟩

/- ---------------------------------------------------------------------
   Association list lemmas (rows and database tables).
   --------------------------------------------------------------------- -/

theorem lookup_cons_ne {α : Type} (k a : String) (v : α) (l : List (String × α))
    (h : k ≠ a) : List.lookup k ((a, v) :: l) = List.lookup k l := by
  rw [List.lookup_cons, show (k == a) = false from beq_eq_false_iff_ne.mpr h]

theorem keysOf_cons {α : Type} (p : String × α) (l : List (String × α)) :
    keysOf (p :: l) = p.1 :: keysOf l := rfl

theorem assocSet_cons {α : Type} (a : String) (b : α) (l : List (String × α))
    (k : String) (v : α) :
    assocSet ((a, b) :: l) k v = (if a = k then (k, v) else (a, b)) :: assocSet l k v := rfl

theorem lookup_assocSet_ne {α : Type} (l : List (String × α)) (k k' : String) (v : α)
    (h : k' ≠ k) : List.lookup k' (assocSet l k v) = List.lookup k' l := by
  induction l with
  | nil => rfl
  | cons p rest ih =>
    obtain ⟨a, b⟩ := p
    rw [assocSet_cons]
    by_cases hak : a = k
    · rw [if_pos hak]
      subst hak
      rw [lookup_cons_ne _ _ _ _ h, lookup_cons_ne _ _ _ _ h]
      exact ih
    · rw [if_neg hak]
      by_cases hka : k' = a
      · subst hka
        rw [List.lookup_cons_self, List.lookup_cons_self]
      · rw [lookup_cons_ne _ _ _ _ hka, lookup_cons_ne _ _ _ _ hka]
        exact ih

theorem lookup_assocSet_self {α : Type} (l : List (String × α)) (k : String) (v : α)
    (h : k ∈ keysOf l) : List.lookup k (assocSet l k v) = some v := by
  induction l with
  | nil => cases h
  | cons p rest ih =>
    obtain ⟨a, b⟩ := p
    rw [assocSet_cons]
    by_cases hak : a = k
    · rw [if_pos hak]
      exact List.lookup_cons_self
    · rw [if_neg hak]
      rw [lookup_cons_ne _ _ _ _ (fun hc => hak hc.symm)]
      rcases List.mem_cons.mp h with hk | hk
      · exact absurd hk.symm hak
      · exact ih hk

theorem keysOf_assocSet {α : Type} (l : List (String × α)) (k : String) (v : α) :
    keysOf (assocSet l k v) = keysOf l := by
  induction l with
  | nil => rfl
  | cons p rest ih =>
    obtain ⟨a, b⟩ := p
    rw [assocSet_cons, keysOf_cons, keysOf_cons, ih]
    by_cases hak : a = k
    · rw [if_pos hak, hak]
    · rw [if_neg hak]

theorem assocSet_not_mem {α : Type} (l : List (String × α)) (k : String) (v : α)
    (h : k ∉ keysOf l) : assocSet l k v = l := by
  induction l with
  | nil => rfl
  | cons p rest ih =>
    obtain ⟨a, b⟩ := p
    have hak : a ≠ k := fun hc => h (by rw [keysOf_cons, hc]; exact List.mem_cons_self _ _)
    have hrest : k ∉ keysOf rest := fun hc => h (by rw [keysOf_cons]; exact List.mem_cons_of_mem _ hc)
    rw [assocSet_cons, if_neg hak, ih hrest]

theorem assocSet_eq_self {α : Type} (l : List (String × α)) (k : String) (v : α)
    (h : List.lookup k l = some v) (hnd : (keysOf l).Nodup) : assocSet l k v = l := by
  induction l with
  | nil => cases h
  | cons p rest ih =>
    obtain ⟨a, b⟩ := p
    rw [keysOf_cons, List.nodup_cons] at hnd
    by_cases hak : a = k
    · subst hak
      rw [List.lookup_cons_self] at h
      cases h
      rw [assocSet_cons, if_pos rfl, assocSet_not_mem rest a v hnd.1]
    · rw [lookup_cons_ne _ _ _ _ (fun hc => hak hc.symm)] at h
      rw [assocSet_cons, if_neg hak, ih h hnd.2]

theorem mem_keys_of_lookup {α : Type} (l : List (String × α)) (k : String) (v : α)
    (h : List.lookup k l = some v) : k ∈ keysOf l := by
  induction l with
  | nil => cases h
  | cons p rest ih =>
    obtain ⟨a, b⟩ := p
    by_cases hka : k = a
    · rw [keysOf_cons, hka]; exact List.mem_cons_self _ _
    · rw [lookup_cons_ne _ _ _ _ hka] at h
      rw [keysOf_cons]
      exact List.mem_cons_of_mem _ (ih h)

theorem lookup_some_of_mem_keys {α : Type} (l : List (String × α)) (k : String)
    (h : k ∈ keysOf l) : ∃ v, List.lookup k l = some v := by
  induction l with
  | nil => cases h
  | cons p rest ih =>
    obtain ⟨a, b⟩ := p
    by_cases hka : k = a
    · subst hka
      exact ⟨b, List.lookup_cons_self⟩
    · rw [lookup_cons_ne _ _ _ _ hka]
      rw [keysOf_cons] at h
      rcases List.mem_cons.mp h with hk | hk
      · exact absurd hk hka
      · exact ih hk

theorem lookup_none_of_not_mem {α : Type} (l : List (String × α)) (k : String)
    (h : k ∉ keysOf l) : List.lookup k l = Option.none := by
  cases hl : List.lookup k l with
  | none => rfl
  | some v => exact absurd (mem_keys_of_lookup l k v hl) h

theorem exists_pair_of_mem_keys {α : Type} (l : List (String × α)) (k : String)
    (h : k ∈ keysOf l) : ∃ v, (k, v) ∈ l := by
  rcases List.mem_map.mp h with ⟨p, hp, hfst⟩
  exact ⟨p.2, by rw [← hfst]; exact hp⟩

theorem lookup_append_not_mem {α : Type} (l l2 : List (String × α)) (k : String)
    (h : k ∉ keysOf l) : List.lookup k (l ++ l2) = List.lookup k l2 := by
  induction l with
  | nil => rfl
  | cons p rest ih =>
    obtain ⟨a, b⟩ := p
    have hka : k ≠ a := fun hc => h (by rw [keysOf_cons, hc]; exact List.mem_cons_self _ _)
    rw [List.cons_append, lookup_cons_ne _ _ _ _ hka]
    exact ih (fun hc => h (by rw [keysOf_cons]; exact List.mem_cons_of_mem _ hc))

theorem lookup_append_mem {α : Type} (l l2 : List (String × α)) (k : String)
    (h : k ∈ keysOf l) : List.lookup k (l ++ l2) = List.lookup k l := by
  induction l with
  | nil => cases h
  | cons p rest ih =>
    obtain ⟨a, b⟩ := p
    by_cases hka : k = a
    · subst hka
      rw [List.cons_append, List.lookup_cons_self, List.lookup_cons_self]
    · rw [List.cons_append, lookup_cons_ne _ _ _ _ hka, lookup_cons_ne _ _ _ _ hka]
      rw [keysOf_cons] at h
      rcases List.mem_cons.mp h with hk | hk
      · exact absurd hk hka
      · exact ih hk

theorem assoc_ext {α : Type} :
    ∀ (r r2 : List (String × α)), keysOf r = keysOf r2 → (keysOf r).Nodup →
      (∀ c, List.lookup c r = List.lookup c r2) → r = r2 := by
  intro r
  induction r with
  | nil =>
    intro r2 hk _ _
    cases r2 with
    | nil => rfl
    | cons p rest => cases hk
  | cons p rest ih =>
    intro r2 hk hnd h
    obtain ⟨a, b⟩ := p
    cases r2 with
    | nil => cases hk
    | cons p2 rest2 =>
      obtain ⟨a2, b2⟩ := p2
      rw [keysOf_cons, keysOf_cons] at hk
      have ha : a = a2 := (List.cons.injEq _ _ _ _).mp hk |>.1
      subst ha
      have hb : b = b2 := by
        have hha := h a
        rw [List.lookup_cons_self, List.lookup_cons_self] at hha
        exact Option.some.inj hha
      subst hb
      rw [keysOf_cons, List.nodup_cons] at hnd
      have hkt : keysOf rest = keysOf rest2 := (List.cons.injEq _ _ _ _).mp hk |>.2
      have hrest : rest = rest2 := by
        apply ih rest2 hkt hnd.2
        intro c
        by_cases hca : c = a
        · subst hca
          rw [lookup_none_of_not_mem rest c hnd.1,
              lookup_none_of_not_mem rest2 c (hkt ▸ hnd.1)]
        · have := h c
          rw [lookup_cons_ne _ _ _ _ hca, lookup_cons_ne _ _ _ _ hca] at this
          exact this
      rw [hrest]

/- ---------------------------------------------------------------------
   Database read and write laws.
   --------------------------------------------------------------------- -/

theorem DB.get_set_self (db : DB) (n : String) (rs : List DRow) :
    (db.set n rs).get n = some rs := by
  rw [DB.set]
  by_cases h : n ∈ keysOf db.tables
  · rw [if_pos h]
    exact lookup_assocSet_self db.tables n rs h
  · rw [if_neg h]
    show List.lookup n (db.tables ++ [(n, rs)]) = some rs
    rw [lookup_append_not_mem _ _ _ h]
    simp [List.lookup_cons]

theorem DB.get_set_ne (db : DB) (n n' : String) (rs : List DRow) (h : n' ≠ n) :
    (db.set n rs).get n' = db.get n' := by
  rw [DB.set]
  by_cases hm : n ∈ keysOf db.tables
  · rw [if_pos hm]
    exact lookup_assocSet_ne db.tables n n' rs h
  · rw [if_neg hm]
    show List.lookup n' (db.tables ++ [(n, rs)]) = List.lookup n' db.tables
    by_cases hm' : n' ∈ keysOf db.tables
    · exact lookup_append_mem _ _ _ hm'
    · rw [lookup_append_not_mem _ _ _ hm', lookup_none_of_not_mem _ _ hm']
      rw [lookup_cons_ne _ _ _ _ h]
      rfl

theorem DB.set_eq_self (db : DB) (n : String) (rs : List DRow)
    (h : db.get n = some rs) (hnd : (keysOf db.tables).Nodup) : db.set n rs = db := by
  have hm : n ∈ keysOf db.tables := mem_keys_of_lookup db.tables n rs h
  rw [DB.set, if_pos hm]
  cases db with
  | mk tables =>
    show DB.mk (assocSet tables n rs) = DB.mk tables
    rw [assocSet_eq_self tables n rs h hnd]

theorem DB.nodup_set (db : DB) (n : String) (rs : List DRow)
    (hnd : (keysOf db.tables).Nodup) : (keysOf (db.set n rs).tables).Nodup := by
  rw [DB.set]
  by_cases h : n ∈ keysOf db.tables
  · rw [if_pos h]
    show (keysOf (assocSet db.tables n rs)).Nodup
    rw [keysOf_assocSet]
    exact hnd
  · rw [if_neg h]
    show (keysOf (db.tables ++ [(n, rs)])).Nodup
    rw [show keysOf (db.tables ++ [(n, rs)]) = keysOf db.tables ++ [n] by
      simp [keysOf]]
    simp [List.nodup_append, hnd, h]

theorem temp_name_ne (schema tn : String) :
    schema ++ "." ++ tn ≠ schema ++ ".temp_" ++ tn := by
  intro h
  have hlen := congrArg String.length h
  have h1 : ("." : String).length = 1 := rfl
  have h6 : (".temp_" : String).length = 6 := rfl
  rw [String.length_append, String.length_append, String.length_append,
      String.length_append, h1, h6] at hlen
  omega

/- ---------------------------------------------------------------------
   Row update lemmas.
   --------------------------------------------------------------------- -/

theorem applyUpdates_cons (u : String × Cell) (us : List (String × Cell)) (r : DRow) :
    applyUpdates (u :: us) r = applyUpdates us (assocSet r u.1 u.2) := rfl

theorem keysOf_applyUpdates (upds : List (String × Cell)) :
    ∀ (r : DRow), keysOf (applyUpdates upds r) = keysOf r := by
  induction upds with
  | nil => intro r; rfl
  | cons u us ih =>
    intro r
    rw [applyUpdates_cons, ih, keysOf_assocSet]

theorem getCol_applyUpdates_not_mem (upds : List (String × Cell)) (c : String)
    (h : c ∉ keysOf upds) :
    ∀ (r : DRow), getCol (applyUpdates upds r) c = getCol r c := by
  induction upds with
  | nil => intro r; rfl
  | cons u us ih =>
    intro r
    have hc1 : c ≠ u.1 := fun hc => h (by rw [keysOf_cons, hc]; exact List.mem_cons_self _ _)
    have hcus : c ∉ keysOf us := fun hc => h (by rw [keysOf_cons]; exact List.mem_cons_of_mem _ hc)
    rw [applyUpdates_cons, ih hcus]
    exact lookup_assocSet_ne r u.1 c u.2 hc1

theorem getCol_applyUpdates_mem (upds : List (String × Cell)) (c : String) (v : Cell) :
    ∀ (r : DRow), (keysOf upds).Nodup → (c, v) ∈ upds → c ∈ keysOf r →
      getCol (applyUpdates upds r) c = some v := by
  induction upds with
  | nil => intro r _ hmem _; cases hmem
  | cons u us ih =>
    intro r hnd hmem hkr
    rw [keysOf_cons, List.nodup_cons] at hnd
    rcases List.mem_cons.mp hmem with heq | hmem2
    · cases heq
      rw [applyUpdates_cons]
      rw [getCol_applyUpdates_not_mem us c hnd.1]
      exact lookup_assocSet_self r c v hkr
    · rw [applyUpdates_cons]
      exact ih (assocSet r u.1 u.2) hnd.2 hmem2 (by rw [keysOf_assocSet]; exact hkr)

theorem keysOf_updAssignments (cols pk : List String) (s : DRow) :
    keysOf (updAssignments cols pk s) = cols.filter (fun c => decide (c ∉ pk)) := by
  unfold updAssignments keysOf
  rw [List.map_map]
  exact List.map_id _

theorem nodup_keys_updAssignments (cols pk : List String) (s : DRow)
    (hnd : cols.Nodup) : (keysOf (updAssignments cols pk s)).Nodup := by
  rw [keysOf_updAssignments]
  exact hnd.filter _

/- ---------------------------------------------------------------------
   Match condition lemmas.
   --------------------------------------------------------------------- -/

theorem matchRows_true_iff (pk : List String) (t s : DRow) :
    matchRows pk t s = true ↔ ∀ c ∈ pk, getCol t c = getCol s c := by
  simp [matchRows, List.all_eq_true]

theorem matchRows_refl (pk : List String) (r : DRow) : matchRows pk r r = true :=
  (matchRows_true_iff pk r r).mpr (fun _ _ => rfl)

theorem matchRows_symm (pk : List String) (a b : DRow) :
    matchRows pk a b = matchRows pk b a := by
  cases hab : matchRows pk a b with
  | true =>
    have hall := (matchRows_true_iff pk a b).mp hab
    have h2 : matchRows pk b a = true :=
      (matchRows_true_iff pk b a).mpr (fun c hc => (hall c hc).symm)
    rw [h2]
  | false =>
    cases hba : matchRows pk b a with
    | false => rfl
    | true =>
      have hall := (matchRows_true_iff pk b a).mp hba
      have h2 : matchRows pk a b = true :=
        (matchRows_true_iff pk a b).mpr (fun c hc => (hall c hc).symm)
      rw [hab] at h2
      cases h2

theorem matchRows_congr_left (pk : List String) (a a2 b : DRow)
    (h : ∀ c ∈ pk, getCol a2 c = getCol a c) :
    matchRows pk a2 b = matchRows pk a b := by
  unfold matchRows
  induction pk with
  | nil => rfl
  | cons c cs ih =>
    rw [List.all_cons, List.all_cons]
    rw [h c (List.mem_cons_self c cs)]
    rw [ih (fun c2 hc2 => h c2 (List.mem_cons_of_mem c hc2))]

/- ---------------------------------------------------------------------
   The updated row: key columns kept, non-key columns from the source.
   --------------------------------------------------------------------- -/

theorem upd_getCol_pk (cols pk : List String) (s t : DRow) (c : String) (hc : c ∈ pk) :
    getCol (applyUpdates (updAssignments cols pk s) t) c = getCol t c := by
  apply getCol_applyUpdates_not_mem
  rw [keysOf_updAssignments]
  intro hmem
  rcases List.mem_filter.mp hmem with ⟨_, hdec⟩
  exact (of_decide_eq_true hdec) hc

theorem upd_getCol_nonpk (cols pk : List String) (s t : DRow) (c : String)
    (hnd : cols.Nodup) (hcc : c ∈ cols) (hcp : c ∉ pk) (hkt : keysOf t = cols) :
    getCol (applyUpdates (updAssignments cols pk s) t) c =
      some ((getCol s c).getD Cell.nan) := by
  have hcf : c ∈ cols.filter (fun c => decide (c ∉ pk)) :=
    List.mem_filter.mpr ⟨hcc, decide_eq_true hcp⟩
  have hmem : (c, (getCol s c).getD Cell.nan) ∈ updAssignments cols pk s :=
    List.mem_map.mpr ⟨c, hcf, rfl⟩
  exact getCol_applyUpdates_mem _ c _ t (nodup_keys_updAssignments cols pk s hnd) hmem
    (by rw [hkt]; exact hcc)

theorem matchRows_upd (cols pk : List String) (s t x : DRow) :
    matchRows pk (applyUpdates (updAssignments cols pk s) t) x = matchRows pk t x :=
  matchRows_congr_left pk t _ x (fun c hc => upd_getCol_pk cols pk s t c hc)

theorem upd_idem (cols pk : List String) (s t : DRow) (hnd : cols.Nodup)
    (hkt : keysOf t = cols) :
    applyUpdates (updAssignments cols pk s) (applyUpdates (updAssignments cols pk s) t) =
      applyUpdates (updAssignments cols pk s) t := by
  have hknd := nodup_keys_updAssignments cols pk s hnd
  apply assoc_ext
  · rw [keysOf_applyUpdates, keysOf_applyUpdates]
  · rw [keysOf_applyUpdates, keysOf_applyUpdates, hkt]
    exact hnd
  · intro c
    by_cases hc : c ∈ keysOf (updAssignments cols pk s)
    · rcases exists_pair_of_mem_keys _ c hc with ⟨v, hv⟩
      have hc_cols : c ∈ cols := by
        rw [keysOf_updAssignments] at hc
        exact List.mem_of_mem_filter hc
      have h1 : getCol (applyUpdates (updAssignments cols pk s) t) c = some v :=
        getCol_applyUpdates_mem _ c v t hknd hv (by rw [hkt]; exact hc_cols)
      have h2 : getCol (applyUpdates (updAssignments cols pk s)
          (applyUpdates (updAssignments cols pk s) t)) c = some v :=
        getCol_applyUpdates_mem _ c v _ hknd hv
          (by rw [keysOf_applyUpdates, hkt]; exact hc_cols)
      show getCol (applyUpdates (updAssignments cols pk s)
          (applyUpdates (updAssignments cols pk s) t)) c =
        getCol (applyUpdates (updAssignments cols pk s) t) c
      rw [h1, h2]
    · show getCol (applyUpdates (updAssignments cols pk s)
          (applyUpdates (updAssignments cols pk s) t)) c =
        getCol (applyUpdates (updAssignments cols pk s) t) c
      rw [getCol_applyUpdates_not_mem _ c hc]

theorem upd_self (cols pk : List String) (r : DRow) (hnd : cols.Nodup)
    (hkr : keysOf r = cols) :
    applyUpdates (updAssignments cols pk r) r = r := by
  apply assoc_ext
  · rw [keysOf_applyUpdates]
  · rw [keysOf_applyUpdates, hkr]
    exact hnd
  · intro c
    by_cases hc : c ∈ keysOf (updAssignments cols pk r)
    · have hcf : c ∈ cols.filter (fun c => decide (c ∉ pk)) := by
        rw [keysOf_updAssignments] at hc
        exact hc
      have hc_cols : c ∈ cols := List.mem_of_mem_filter hcf
      have hmem : (c, (getCol r c).getD Cell.nan) ∈ updAssignments cols pk r :=
        List.mem_map.mpr ⟨c, hcf, rfl⟩
      have h1 := getCol_applyUpdates_mem _ c _ r
        (nodup_keys_updAssignments cols pk r hnd) hmem (by rw [hkr]; exact hc_cols)
      rcases lookup_some_of_mem_keys r c (by rw [hkr]; exact hc_cols) with ⟨w, hw⟩
      show getCol (applyUpdates (updAssignments cols pk r) r) c = getCol r c
      rw [h1]
      show some ((getCol r c).getD Cell.nan) = getCol r c
      rw [show getCol r c = some w from hw]
      rfl
    · show getCol (applyUpdates (updAssignments cols pk r) r) c = getCol r c
      rw [getCol_applyUpdates_not_mem _ c hc]

/- ---------------------------------------------------------------------
   Merge lemmas.
   --------------------------------------------------------------------- -/

theorem find?_pairwise_self (pk : List String) (r : DRow) :
    ∀ (l : List DRow), l.Pairwise (fun a b => matchRows pk a b = false) → r ∈ l →
      l.find? (fun s => matchRows pk r s) = some r := by
  intro l
  induction l with
  | nil => intro _ hr; cases hr
  | cons a as ih =>
    intro hU hr
    rw [List.pairwise_cons] at hU
    rcases List.mem_cons.mp hr with heq | hmem
    · subst heq
      exact List.find?_cons_of_pos _ (matchRows_refl pk r)
    · have hfalse : matchRows pk r a = false := by
        rw [matchRows_symm]
        exact hU.1 r hmem
      rw [List.find?_cons_of_neg _ (by rw [hfalse]; exact Bool.false_ne_true)]
      exact ih hU.2 hmem

theorem map_eq_self_of {α : Type} (l : List α) (f : α → α) (h : ∀ x ∈ l, f x = x) :
    l.map f = l := by
  induction l with
  | nil => rfl
  | cons a as ih =>
    rw [List.map_cons, h a (List.mem_cons_self a as),
        ih (fun x hx => h x (List.mem_cons_of_mem a hx))]

theorem mergeUpd_find_some (cols pk : List String) (S : List DRow) (t s : DRow)
    (hfind : S.find? (fun s2 => matchRows pk t s2) = some s) :
    mergeUpd cols pk S t = applyUpdates (updAssignments cols pk s) t := by
  rw [mergeUpd, hfind]

theorem mergeUpd_find_none (cols pk : List String) (S : List DRow) (t : DRow)
    (hfind : S.find? (fun s2 => matchRows pk t s2) = Option.none) :
    mergeUpd cols pk S t = t := by
  rw [mergeUpd, hfind]

theorem mergeInto_keys (cols pk : List String) (T S : List DRow)
    (hT : ∀ r ∈ T, keysOf r = cols) (hS : ∀ s ∈ S, keysOf s = cols) :
    ∀ r ∈ mergeInto cols pk T S, keysOf r = cols := by
  intro r hr
  rcases List.mem_append.mp hr with hmap | hfil
  · rcases List.mem_map.mp hmap with ⟨t, htT, rfl⟩
    cases hfind : S.find? (fun s2 => matchRows pk t s2) with
    | none => rw [mergeUpd_find_none cols pk S t hfind]; exact hT t htT
    | some s =>
      rw [mergeUpd_find_some cols pk S t s hfind, keysOf_applyUpdates]
      exact hT t htT
  · exact hS r (List.mem_of_mem_filter hfil)

theorem mergeInto_idem (cols pk : List String) (T S : List DRow)
    (hnd : cols.Nodup)
    (hT : ∀ r ∈ T, keysOf r = cols) (hS : ∀ s ∈ S, keysOf s = cols)
    (hU : S.Pairwise (fun a b => matchRows pk a b = false)) :
    mergeInto cols pk (mergeInto cols pk T S) S = mergeInto cols pk T S := by
  have hfix : ∀ r ∈ mergeInto cols pk T S, mergeUpd cols pk S r = r := by
    intro r hr
    rcases List.mem_append.mp hr with hmap | hfil
    · rcases List.mem_map.mp hmap with ⟨t, htT, rfl⟩
      cases hfind : S.find? (fun s2 => matchRows pk t s2) with
      | none =>
        rw [mergeUpd_find_none cols pk S t hfind, mergeUpd_find_none cols pk S t hfind]
      | some s =>
        rw [mergeUpd_find_some cols pk S t s hfind]
        have hfind2 : S.find?
            (fun s2 => matchRows pk (applyUpdates (updAssignments cols pk s) t) s2) = some s := by
          have hpred : (fun s2 => matchRows pk (applyUpdates (updAssignments cols pk s) t) s2)
              = (fun s2 => matchRows pk t s2) :=
            funext (fun x => matchRows_upd cols pk s t x)
          rw [hpred]
          exact hfind
        rw [mergeUpd_find_some cols pk S _ s hfind2]
        exact upd_idem cols pk s t hnd (hT t htT)
    · have hrS : r ∈ S := List.mem_of_mem_filter hfil
      rw [mergeUpd_find_some cols pk S r r (find?_pairwise_self pk r S hU hrS)]
      exact upd_self cols pk r hnd (hS r hrS)
  have hins : ∀ s ∈ S, (mergeInto cols pk T S).any (fun t => matchRows pk t s) = true := by
    intro s hsS
    cases hany : T.any (fun t => matchRows pk t s) with
    | true =>
      rcases List.any_eq_true.mp hany with ⟨t, htT, hm⟩
      apply List.any_eq_true.mpr
      refine ⟨mergeUpd cols pk S t,
        List.mem_append_left _ (List.mem_map.mpr ⟨t, htT, rfl⟩), ?_⟩
      cases hfind : S.find? (fun s2 => matchRows pk t s2) with
      | none => rw [mergeUpd_find_none cols pk S t hfind]; exact hm
      | some s2 =>
        rw [mergeUpd_find_some cols pk S t s2 hfind, matchRows_upd cols pk s2 t s]
        exact hm
    | false =>
      apply List.any_eq_true.mpr
      refine ⟨s, List.mem_append_right _ (List.mem_filter.mpr ⟨hsS, ?_⟩), matchRows_refl pk s⟩
      rw [hany]
      rfl
  conv_lhs => rw [mergeInto]
  rw [map_eq_self_of _ _ hfix]
  rw [show S.filter (fun s => !((mergeInto cols pk T S).any (fun t => matchRows pk t s))) = []
    from List.filter_eq_nil_iff.mpr (fun s hsS => by rw [hins s hsS]; exact fun hc => by cases hc)]
  rw [List.append_nil]

/- ---------------------------------------------------------------------
   C4: the merge statement semantics.
   --------------------------------------------------------------------- -/

/-- C4: the merge built by the upsert loader matches staging rows against
destination rows on the AND-conjunction of equality over exactly the key
columns; a matched destination row is updated on every non-key table column
from the matching staging row while its key columns keep their values; an
unmatched destination row is unchanged; a staging row matching no
destination row is inserted as the full row. -/
theorem merge_statement_semantics (cols pk : List String) (target staging : List DRow)
    (hnd : cols.Nodup)
    (htwf : ∀ r ∈ target, keysOf r = cols) (hswf : ∀ s ∈ staging, keysOf s = cols) :
    (∀ t s, matchRows pk t s = true ↔ ∀ c ∈ pk, getCol t c = getCol s c) ∧
    (∀ (i : Nat) t s, target[i]? = some t →
        staging.find? (fun s2 => matchRows pk t s2) = some s →
        ∃ r, (mergeInto cols pk target staging)[i]? = some r ∧
          (∀ c ∈ pk, getCol r c = getCol t c) ∧
          (∀ c ∈ cols, c ∉ pk → getCol r c = getCol s c)) ∧
    (∀ (i : Nat) t, target[i]? = some t →
        staging.find? (fun s2 => matchRows pk t s2) = Option.none →
        (mergeInto cols pk target staging)[i]? = some t) ∧
    (∀ s ∈ staging, (∀ t ∈ target, matchRows pk t s = false) →
        s ∈ mergeInto cols pk target staging) := by
  refine ⟨fun t s => matchRows_true_iff pk t s, ?_, ?_, ?_⟩
  · intro i t s hget hfind
    have hi : i < target.length := (List.getElem?_eq_some_iff.mp hget).1
    have hmem_t : t ∈ target := List.getElem?_mem hget
    refine ⟨mergeUpd cols pk staging t, ?_, ?_, ?_⟩
    · rw [mergeInto, List.getElem?_append_left (by rw [List.length_map]; exact hi),
          List.getElem?_map, hget]
      rfl
    · intro c hc
      rw [mergeUpd_find_some cols pk staging t s hfind]
      exact upd_getCol_pk cols pk s t c hc
    · intro c hcc hcp
      rw [mergeUpd_find_some cols pk staging t s hfind]
      rw [upd_getCol_nonpk cols pk s t c hnd hcc hcp (htwf t hmem_t)]
      have hsS : s ∈ staging := List.mem_of_find?_eq_some hfind
      rcases lookup_some_of_mem_keys s c (by rw [hswf s hsS]; exact hcc) with ⟨w, hw⟩
      rw [show getCol s c = some w from hw]
      rfl
  · intro i t hget hfind
    have hi : i < target.length := (List.getElem?_eq_some_iff.mp hget).1
    rw [mergeInto, List.getElem?_append_left (by rw [List.length_map]; exact hi),
        List.getElem?_map, hget]
    show some (mergeUpd cols pk staging t) = some t
    rw [mergeUpd_find_none cols pk staging t hfind]
  · intro s hsS hnomatch
    rw [mergeInto]
    apply List.mem_append_right
    apply List.mem_filter.mpr
    refine ⟨hsS, ?_⟩
    have hany : target.any (fun t => matchRows pk t s) = false :=
      List.any_eq_false.mpr (fun t ht => by rw [hnomatch t ht]; exact fun hc => by cases hc)
    rw [hany]
    rfl

/-- C4 (witness): the merge semantics at a concrete two-column table with one
matched and one unmatched staging row. -/
theorem merge_statement_semantics_witness :
    (∀ t s, matchRows ["latitude"] t s = true ↔
        ∀ c ∈ ["latitude"], getCol t c = getCol s c) ∧
    (∀ (i : Nat) t s, [exTgtRow][i]? = some t →
        [exStgRow, exStgRow2].find? (fun s2 => matchRows ["latitude"] t s2) = some s →
        ∃ r, (mergeInto exCols ["latitude"] [exTgtRow] [exStgRow, exStgRow2])[i]? = some r ∧
          (∀ c ∈ ["latitude"], getCol r c = getCol t c) ∧
          (∀ c ∈ exCols, c ∉ ["latitude"] → getCol r c = getCol s c)) ∧
    (∀ (i : Nat) t, [exTgtRow][i]? = some t →
        [exStgRow, exStgRow2].find? (fun s2 => matchRows ["latitude"] t s2) = Option.none →
        (mergeInto exCols ["latitude"] [exTgtRow] [exStgRow, exStgRow2])[i]? = some t) ∧
    (∀ s ∈ [exStgRow, exStgRow2], (∀ t ∈ [exTgtRow], matchRows ["latitude"] t s = false) →
        s ∈ mergeInto exCols ["latitude"] [exTgtRow] [exStgRow, exStgRow2]) :=
  merge_statement_semantics exCols ["latitude"] [exTgtRow] [exStgRow, exStgRow2]
    (by decide) (by decide) (by decide)

/- ---------------------------------------------------------------------
   C3: the staging table after the upsert.
   --------------------------------------------------------------------- -/

/-- C3 (counterexample): on the concrete example the upsert succeeds and on
exit the staging table s.temp_t still exists in the database, so the claim
that the staging table is dropped and no longer exists is false. -/
theorem upsert_staging_persists_cex :
    (upsert_to_postgres exDf "t" "s" exDb exPk).map
      (fun d => (DB.get d "s.temp_t").isSome) = Except.ok true := by
  decide

/-- C3 (amended): for every successful run of upsert_to_postgres, after the
merge is executed the transaction is committed, but the staging table is not
dropped: on exit it still exists and holds the source rows (the code issues
no DROP; the staging table is only replaced by the next run). -/
theorem upsert_staging_persists (df : DataFrame) (tn schema : String) (db : DB)
    (pk : List String) (db' : DB)
    (hrun : upsert_to_postgres df tn schema db pk = Except.ok db') :
    DB.get db' (schema ++ ".temp_" ++ tn) = some (dfRecords df) := by
  simp only [upsert_to_postgres] at hrun
  cases hg : db.get (schema ++ "." ++ tn) with
  | none => rw [hg] at hrun; cases hrun
  | some target_rows =>
    rw [hg] at hrun
    have hdb' := Except.ok.inj hrun
    rw [← hdb']
    rw [DB.get_set_ne _ _ _ _ (temp_name_ne schema tn).symm]
    exact DB.get_set_self _ _ _

/-- C3 (witness): the amended statement at the concrete example. -/
theorem upsert_staging_persists_witness :
    upsert_to_postgres exDf "t" "s" exDb exPk = Except.ok exDbAfter ∧
    DB.get exDbAfter ("s" ++ ".temp_" ++ "t") = some (dfRecords exDf) :=
  ⟨by decide, upsert_staging_persists exDf "t" "s" exDb exPk exDbAfter (by decide)⟩

/- ---------------------------------------------------------------------
   C6: idempotence of the upsert.
   --------------------------------------------------------------------- -/

/-- C6: the upsert is idempotent on the database. For every well-formed
source table with key-unique rows and every destination state (including one
seeded with a pre-existing row sharing a key), a second run of
upsert_to_postgres with the identical table maps the state produced by the
first run to itself: destination rows are unchanged and nothing is
duplicated. -/
theorem upsert_idempotent (df : DataFrame) (tn schema : String) (db : DB)
    (pk : List String) (target_rows : List DRow) (db' : DB)
    (hdbnd : (keysOf db.tables).Nodup)
    (hcols : df.columns.Nodup)
    (hdf : ∀ r ∈ df.rows, r.length = df.columns.length)
    (hget : db.get (schema ++ "." ++ tn) = some target_rows)
    (htwf : ∀ r ∈ target_rows, keysOf r = df.columns)
    (huniq : (dfRecords df).Pairwise (fun a b => matchRows pk a b = false))
    (hrun : upsert_to_postgres df tn schema db pk = Except.ok db') :
    upsert_to_postgres df tn schema db' pk = Except.ok db' := by
  have hswf : ∀ s ∈ dfRecords df, keysOf s = df.columns := by
    intro s hs
    rcases List.mem_map.mp hs with ⟨r, hr, rfl⟩
    show List.map Prod.fst (df.columns.zip r) = df.columns
    exact List.map_fst_zip _ _ (le_of_eq (hdf r hr).symm)
  have hsrc : (db.set (schema ++ ".temp_" ++ tn) (dfRecords df)).get
      (schema ++ ".temp_" ++ tn) = some (dfRecords df) := DB.get_set_self _ _ _
  simp only [upsert_to_postgres, hget, hsrc, Option.getD_some] at hrun
  have hdb' := Except.ok.inj hrun
  have hne : schema ++ "." ++ tn ≠ schema ++ ".temp_" ++ tn := temp_name_ne schema tn
  have hnd' : (keysOf db'.tables).Nodup := by
    rw [← hdb']
    exact DB.nodup_set _ _ _ (DB.nodup_set _ _ _ hdbnd)
  have hget_tgt : db'.get (schema ++ "." ++ tn) =
      some (mergeInto df.columns pk target_rows (dfRecords df)) := by
    rw [← hdb']
    exact DB.get_set_self _ _ _
  have hget_temp : db'.get (schema ++ ".temp_" ++ tn) = some (dfRecords df) := by
    rw [← hdb', DB.get_set_ne _ _ _ _ hne.symm]
    exact DB.get_set_self _ _ _
  have hset_temp : db'.set (schema ++ ".temp_" ++ tn) (dfRecords df) = db' :=
    DB.set_eq_self _ _ _ hget_temp hnd'
  have hsrc2 : (db'.set (schema ++ ".temp_" ++ tn) (dfRecords df)).get
      (schema ++ ".temp_" ++ tn) = some (dfRecords df) := DB.get_set_self _ _ _
  have hidem := mergeInto_idem df.columns pk target_rows (dfRecords df)
    hcols htwf hswf huniq
  simp only [upsert_to_postgres, hget_tgt, hsrc2, Option.getD_some]
  rw [hset_temp, hidem, DB.set_eq_self db' _ _ hget_tgt hnd']

/-- C6 (witness): the idempotence at the concrete example, whose destination
is seeded with a row sharing the key of the source row. -/
theorem upsert_idempotent_witness :
    upsert_to_postgres exDf "t" "s" exDbAfter exPk = Except.ok exDbAfter :=
  upsert_idempotent exDf "t" "s" exDb exPk exSeedRows exDbAfter
    (by decide) (by decide) (by decide) (by decide) (by decide) (by decide) (by decide)

end Tomorrow
